import Mathlib

/-!
Shallow embedding of the unified-logging client core (ConfigManager,
AsyncLogQueue, Logger, SafariExceptionHandler) of the sdd2 repository,
together with theorems settling the specification claims.

Sources embedded:
  - src/unnamed/part_003  (types/config.ts, types/logging.ts, log-queue.ts)
  - src/unnamed/part_004  (config-manager.ts)
  - src/frontend/src/logger.ts
  - src/unnamed/part_009  (exception-handler.ts, SafariExceptionHandler)

Machine numbers of the TypeScript code are modelled as `Int` (all values
that occur are small integers), JavaScript objects used as free-form maps
are modelled as association lists with later bindings overriding earlier
ones (the semantics of object spread), and asynchronous effects are made
explicit: the transport is a function from attempt number to outcome, and
observable actions (HTTP sends, sleeps, console writes) are recorded as an
event trace.
-/

namespace SDD2

/-- Embeds `type LogLevel = 'debug' | 'info' | 'warn' | 'error'`
(src/unnamed/part_003, line 1). -/
inductive LogLevel where
  | debug
  | info
  | warn
  | error
deriving DecidableEq

/-- Embeds `LOG_LEVELS: Record<LogLevel, number>` (src/unnamed/part_003,
lines 41-46): the numeric rank of each level. -/
def LOG_LEVELS : LogLevel → Int
  | .debug => 0
  | .info => 1
  | .warn => 2
  | .error => 3

/-- The wire name of a level, as serialized by JSON.stringify. -/
def levelName : LogLevel → String
  | .debug => "debug"
  | .info => "info"
  | .warn => "warn"
  | .error => "error"

/-- A JSON-like runtime value, modelling the JavaScript values that flow
through context objects and configuration objects. -/
inductive JVal where
  | str (s : String)
  | num (n : Int)
  | bool (b : Bool)
  | null
  | arr (elems : List JVal)
  | obj (fields : List (String × JVal))

/-- A JavaScript object used as a map: an association list in which a later
binding for a key overrides an earlier one (the semantics of
`\x7b ...a, ...b \x7d` object spread, which is modelled by list append). -/
abbrev JObj : Type := List (String × JVal)

/-- Property lookup on a JavaScript object: the LAST binding of the key
wins, matching assignment/spread override order. -/
def oget : JObj → String → Option JVal
  | [], _ => none
  | (k', v) :: rest, k =>
    match oget rest k with
    | some v' => some v'
    | none => if k' = k then some v else none

/-- Whether the object has an own property named `k`. -/
def hasKey (o : JObj) (k : String) : Bool :=
  o.any fun p => p.1 == k

/-- Embeds `interface LogFormatOptions` (src/unnamed/part_003, lines 15-21). -/
structure LogFormatOptions where
  includeTimestamp : Bool
  timestampFormat : String
  includeSource : Bool
  includeContext : Bool
  maxMessageLength : Option Int
deriving DecidableEq

/-- Embeds `interface LoggingConfig` (src/unnamed/part_003, lines 3-13). -/
structure LoggingConfig where
  apiEndpoint : String
  batchSize : Int
  flushInterval : Int
  maxQueueSize : Int
  logLevel : LogLevel
  retryAttempts : Int
  retryDelayMs : Int
  enabled : Bool
  formatOptions : LogFormatOptions
deriving DecidableEq

/-- Embeds `DEFAULT_CONFIG` (src/unnamed/part_003, lines 23-39). -/
def DEFAULT_CONFIG : LoggingConfig where
  apiEndpoint := "http://localhost:8000/api/logs"
  batchSize := 10
  flushInterval := 5000
  maxQueueSize := 100
  logLevel := .info
  retryAttempts := 3
  retryDelayMs := 1000
  enabled := true
  formatOptions :=
    { includeTimestamp := true
      timestampFormat := "iso"
      includeSource := true
      includeContext := true
      maxMessageLength := some 1000 }

/-- Embeds the TypeScript type `Partial<LoggingConfig>`: every recognized
field optionally present. -/
structure ConfigPatch where
  apiEndpoint : Option String := none
  batchSize : Option Int := none
  flushInterval : Option Int := none
  maxQueueSize : Option Int := none
  logLevel : Option LogLevel := none
  retryAttempts : Option Int := none
  retryDelayMs : Option Int := none
  enabled : Option Bool := none
  formatOptions : Option LogFormatOptions := none

/-- Embeds the object spread `\x7b ...base, ...patch \x7d` at the typed
level: each recognized field takes the patch value when present, otherwise
the base value (src/unnamed/part_004, lines 7 and 16). -/
def mergeConfig (base : LoggingConfig) (p : ConfigPatch) : LoggingConfig where
  apiEndpoint := p.apiEndpoint.getD base.apiEndpoint
  batchSize := p.batchSize.getD base.batchSize
  flushInterval := p.flushInterval.getD base.flushInterval
  maxQueueSize := p.maxQueueSize.getD base.maxQueueSize
  logLevel := p.logLevel.getD base.logLevel
  retryAttempts := p.retryAttempts.getD base.retryAttempts
  retryDelayMs := p.retryDelayMs.getD base.retryDelayMs
  enabled := p.enabled.getD base.enabled
  formatOptions := p.formatOptions.getD base.formatOptions

/-- Models the browser builtin `new URL(url)` success test used by
`ConfigManager.isValidUrl` (src/unnamed/part_004, lines 90-97): the string
must start with a non-empty alphabetic scheme followed by a colon and more
text. This is an external platform API, not repository code; the claims
never depend on which strings it accepts beyond the defaults. -/
def isValidUrl (s : String) : Bool :=
  let cs := s.toList
  let scheme := cs.takeWhile (fun c => c ≠ ':')
  !scheme.isEmpty && scheme.all Char.isAlpha && decide (scheme.length < cs.length)

namespace ConfigManager

/-- Embeds `ConfigManager.validateConfig` (src/unnamed/part_004, lines
60-88), checking the constraints in source order and throwing the first
failing constraint's message. The final log-level membership check of the
source is a check that `logLevel` is a key of `LOG_LEVELS`, which holds for
every value of the `LogLevel` type, so it never throws in the typed model. -/
def validateConfig (c : LoggingConfig) : Except String Unit :=
  if c.batchSize ≤ 0 then .error "Batch size must be greater than 0"
  else if c.flushInterval ≤ 0 then .error "Flush interval must be greater than 0"
  else if c.maxQueueSize ≤ 0 then .error "Max queue size must be greater than 0"
  else if c.retryAttempts < 0 then .error "Retry attempts must be non-negative"
  else if c.retryDelayMs ≤ 0 then .error "Retry delay must be greater than 0"
  else if c.apiEndpoint = "" || !isValidUrl c.apiEndpoint then
    .error "API endpoint must be a valid URL"
  else .ok ()

/-- Embeds the `ConfigManager` constructor (src/unnamed/part_004, lines
6-9): merge the custom patch over the defaults, then validate; on success
the merged configuration is the stored state. -/
def construct (custom : ConfigPatch) : Except String LoggingConfig :=
  let cfg := mergeConfig DEFAULT_CONFIG custom
  match validateConfig cfg with
  | .ok _ => .ok cfg
  | .error e => .error e

/-- Embeds `ConfigManager.getConfig` (src/unnamed/part_004, lines 11-13):
returns a shallow copy of the stored configuration; as a value it equals
the stored configuration. -/
def getConfig (stored : LoggingConfig) : LoggingConfig :=
  stored

/-- Embeds `ConfigManager.updateConfig` (src/unnamed/part_004, lines
15-18). The source first reassigns `this.config` to the merged object and
only then validates, so the returned pair is (the stored configuration
after the call, the validation outcome): on validation failure the stored
configuration is already the merged one. -/
def updateConfig (stored : LoggingConfig) (updates : ConfigPatch) :
    LoggingConfig × Except String Unit :=
  let merged := mergeConfig stored updates
  (merged, validateConfig merged)

/-- Embeds `ConfigManager.isLogLevelEnabled` (src/unnamed/part_004, lines
20-22). -/
def isLogLevelEnabled (stored : LoggingConfig) (level : LogLevel) : Bool :=
  LOG_LEVELS stored.logLevel ≤ LOG_LEVELS level

/-- Embeds `ConfigManager.shouldLog` (src/unnamed/part_004, lines 24-26). -/
def shouldLog (stored : LoggingConfig) (level : LogLevel) : Bool :=
  stored.enabled && isLogLevelEnabled stored level

end ConfigManager

/-- Embeds `interface LogEntry` (src/unnamed/part_003, lines 46-54). -/
structure LogEntry where
  timestamp : String
  level : LogLevel
  message : String
  source : String
  context : Option JObj
  stackTrace : Option String
  component : Option String

/-- JavaScript `a || b` on strings: the empty string is falsy. -/
def jsOr (a b : String) : String :=
  if a = "" then b else a

/-- JavaScript `a || b` where `a` may be `undefined`. -/
def jsOrOpt (a : Option String) (b : String) : String :=
  match a with
  | some s => jsOr s b
  | none => b

namespace AsyncLogQueue

/-- Removes the first entry of the queue at the given level; `none` when no
entry has that level. Embeds the `findIndex` plus `splice(index, 1)` pair
of `handleQueueOverflow` (src/unnamed/part_003, lines 113-115). -/
def removeFirstAtLevel (l : LogLevel) : List LogEntry → Option (List LogEntry)
  | [] => none
  | e :: rest =>
    if e.level = l then some rest
    else (removeFirstAtLevel l rest).map (e :: ·)

/-- Embeds `AsyncLogQueue.handleQueueOverflow` (src/unnamed/part_003, lines
108-126): scan the levels in the order debug, info, warn, error and remove
the first queue entry at the first level that is present; if no level
matched (only possible for the empty queue) fall back to dropping the head
(`shift`), guarded by a non-emptiness test in the source, which `List.drop
1` reproduces. The console warning the source emits alongside the drop is
not part of the queue state. -/
def handleQueueOverflow (q : List LogEntry) : List LogEntry :=
  match removeFirstAtLevel .debug q with
  | some q' => q'
  | none =>
    match removeFirstAtLevel .info q with
    | some q' => q'
    | none =>
      match removeFirstAtLevel .warn q with
      | some q' => q'
      | none =>
        match removeFirstAtLevel .error q with
        | some q' => q'
        | none => q.drop 1

/-- Embeds the synchronous queue mutation of `AsyncLogQueue.enqueue`
(src/unnamed/part_003, lines 92-98): overflow eviction when the current
size has reached `maxQueueSize`, then appending the new entry. The
batch-size flush trigger of lines 100-105 only initiates delivery of a
popped batch; it is modelled separately by `flushStartStep` and the full
operation `enqueueStep`. -/
def enqueue (maxQueueSize : Int) (q : List LogEntry) (e : LogEntry) : List LogEntry :=
  (if maxQueueSize ≤ (q.length : Int) then handleQueueOverflow q else q) ++ [e]

/-- The queue's mutable state: its entry list and the single-flight flush
flag (src/unnamed/part_003, lines 84-86). -/
structure QueueState where
  queue : List LogEntry
  isFlushInProgress : Bool

/-- The synchronous prefix of `AsyncLogQueue.flush` (src/unnamed/part_003,
lines 128-141): a no-op when a flush is in flight or the queue is empty;
otherwise the flag is set and `splice(0, batchSize)` removes the batch from
the head before the asynchronous send suspends. -/
def flushStartStep (cfg : LoggingConfig) (st : QueueState) : QueueState :=
  if st.isFlushInProgress || st.queue.isEmpty then st
  else { queue := st.queue.drop cfg.batchSize.toNat, isFlushInProgress := true }

/-- The resumption of `AsyncLogQueue.flush` after the send settles: the
`finally` block clears the single-flight flag (src/unnamed/part_003, lines
142-144). -/
def flushEndStep (st : QueueState) : QueueState :=
  { st with isFlushInProgress := false }

/-- Embeds the whole of `AsyncLogQueue.enqueue` (src/unnamed/part_003,
lines 92-106) as one state step: the queue mutation of `enqueue`, followed
by the synchronous prefix of the triggered flush when the resulting size
has reached `batchSize`. -/
def enqueueStep (cfg : LoggingConfig) (st : QueueState) (e : LogEntry) : QueueState :=
  let q2 := enqueue cfg.maxQueueSize st.queue e
  let st2 : QueueState := { st with queue := q2 }
  if cfg.batchSize ≤ (q2.length : Int) then flushStartStep cfg st2 else st2

/-- One observable action of the queue's delivery pipeline. -/
inductive QEvent where
  | send (attempt : Nat)
  | sleep (ms : Int)
  | consoleWarnFallback
  | consoleEntry (e : LogEntry)

/-- Embeds `AsyncLogQueue.fallbackToConsole` (src/unnamed/part_003, lines
191-194) as its event trace: the warning marker, then one console write per
batch entry in order. -/
def fallbackToConsole (batch : List LogEntry) : List QEvent :=
  QEvent.consoleWarnFallback :: batch.map QEvent.consoleEntry

/-- Embeds `AsyncLogQueue.sendBatchWithRetry` (src/unnamed/part_003, lines
147-165). The transport is abstracted as `sendResult`, giving each
0-indexed attempt's outcome (`none` = success, `some err` = failure, which
covers network errors, non-2xx statuses and the 10-second abort alike).
Returns the event trace (sends, backoff sleeps, console fallback) and the
outcome propagated to the caller. -/
def sendBatchWithRetry (retryAttempts retryDelayMs : Int)
    (sendResult : Nat → Option String) (batch : List LogEntry)
    (attempt : Nat) : List QEvent × Except String Unit :=
  match sendResult attempt with
  | none => ([QEvent.send attempt], .ok ())
  | some err =>
    if h : (attempt : Int) < retryAttempts then
      let delay := retryDelayMs * 2 ^ attempt
      let rest := sendBatchWithRetry retryAttempts retryDelayMs sendResult batch (attempt + 1)
      (QEvent.send attempt :: QEvent.sleep delay :: rest.1, rest.2)
    else
      (QEvent.send attempt :: fallbackToConsole batch, .error err)
  termination_by (retryAttempts + 1 - (attempt : Int)).toNat
  decreasing_by omega

/-- Embeds one complete run of `AsyncLogQueue.flush` (src/unnamed/part_003,
lines 128-145), from the synchronous guard to the settled send and the
`finally` clearing of the flag: returns the final state, the event trace
and the outcome surfaced to the caller. -/
def flush (cfg : LoggingConfig) (sendResult : Nat → Option String)
    (st : QueueState) : QueueState × List QEvent × Except String Unit :=
  if st.isFlushInProgress || st.queue.isEmpty then (st, [], .ok ())
  else
    let batch := st.queue.take cfg.batchSize.toNat
    let rest := st.queue.drop cfg.batchSize.toNat
    if batch.isEmpty then ({ queue := rest, isFlushInProgress := false }, [], .ok ())
    else
      let out := sendBatchWithRetry cfg.retryAttempts cfg.retryDelayMs sendResult batch 0
      ({ queue := rest, isFlushInProgress := false }, out.1, out.2)

/-- Embeds the HTTP request constructed by `AsyncLogQueue.sendBatch`
(src/unnamed/part_003, lines 167-189): the method, URL, content-type header
and body. The body is kept structured (the JSON value that
`JSON.stringify` serializes) rather than as text. -/
structure HttpRequest where
  url : String
  httpMethod : String
  contentType : String
  body : JVal

/-- The JSON value `JSON.stringify` produces for a `LogEntry`: the fields
in declaration order, with `undefined` optional fields omitted. -/
def entryToJson (e : LogEntry) : JVal :=
  .obj
    ([("timestamp", .str e.timestamp),
      ("level", .str (levelName e.level)),
      ("message", .str e.message),
      ("source", .str e.source)]
      ++ (match e.context with
          | some c => [("context", JVal.obj c)]
          | none => [])
      ++ (match e.stackTrace with
          | some s => [("stackTrace", JVal.str s)]
          | none => [])
      ++ (match e.component with
          | some c => [("component", JVal.str c)]
          | none => []))

/-- Embeds the request of `AsyncLogQueue.sendBatch` (src/unnamed/part_003,
lines 172-181): a POST to the configured endpoint with `/api/logs`
appended, JSON content type, and body an object with the single key
`entries` holding the serialized batch. -/
def sendBatchRequest (cfg : LoggingConfig) (batch : List LogEntry) : HttpRequest where
  url := cfg.apiEndpoint ++ "/api/logs"
  httpMethod := "POST"
  contentType := "application/json"
  body := .obj [("entries", .arr (batch.map entryToJson))]

/-- One interleavable queue operation: an enqueue (with its possible
auto-flush trigger), the synchronous start of a flush, or the asynchronous
completion of a flush. -/
inductive QOp where
  | enq (e : LogEntry)
  | flushStart
  | flushEnd

/-- Applies one operation to the queue state. -/
def stepOp (cfg : LoggingConfig) (st : QueueState) : QOp → QueueState
  | .enq e => enqueueStep cfg st e
  | .flushStart => flushStartStep cfg st
  | .flushEnd => flushEndStep st

/-- Runs a sequence of queue operations from a starting state. -/
def runOps (cfg : LoggingConfig) (st : QueueState) (ops : List QOp) : QueueState :=
  ops.foldl (stepOp cfg) st

end AsyncLogQueue

namespace Logger

/-- Embeds `Logger.createLogEntry` (src/frontend/src/logger.ts, lines
28-44). `now` stands for `new Date().toISOString()`; the component falls
back to `'safari-extension'` through JavaScript `||`, so an empty string
also takes the default. -/
def createLogEntry (now : String) (level : LogLevel) (message : String)
    (context : Option JObj) (stackTrace : Option String)
    (component : Option String) : LogEntry where
  timestamp := now
  level := level
  message := message
  source := "frontend"
  context := context
  stackTrace := stackTrace
  component := some (jsOrOpt component "safari-extension")

/-- Embeds `Logger.debug` (src/frontend/src/logger.ts, lines 52-57) as a
function from the queue's entry list to the entry list after the call. -/
def debugCall (cfg : LoggingConfig) (now : String) (q : List LogEntry)
    (message : String) (context : Option JObj) : List LogEntry :=
  if ConfigManager.shouldLog cfg .debug then
    AsyncLogQueue.enqueue cfg.maxQueueSize q (createLogEntry now .debug message context none none)
  else q

/-- Embeds `Logger.info` (src/frontend/src/logger.ts, lines 59-64). -/
def infoCall (cfg : LoggingConfig) (now : String) (q : List LogEntry)
    (message : String) (context : Option JObj) : List LogEntry :=
  if ConfigManager.shouldLog cfg .info then
    AsyncLogQueue.enqueue cfg.maxQueueSize q (createLogEntry now .info message context none none)
  else q

/-- Embeds `Logger.warn` (src/frontend/src/logger.ts, lines 66-71). -/
def warnCall (cfg : LoggingConfig) (now : String) (q : List LogEntry)
    (message : String) (context : Option JObj) : List LogEntry :=
  if ConfigManager.shouldLog cfg .warn then
    AsyncLogQueue.enqueue cfg.maxQueueSize q (createLogEntry now .warn message context none none)
  else q

/-- Embeds `Logger.error` (src/frontend/src/logger.ts, lines 73-78). -/
def errorCall (cfg : LoggingConfig) (now : String) (q : List LogEntry)
    (message : String) (context : Option JObj) : List LogEntry :=
  if ConfigManager.shouldLog cfg .error then
    AsyncLogQueue.enqueue cfg.maxQueueSize q (createLogEntry now .error message context none none)
  else q

/-- Dispatches the four level methods on their level, for claims that
quantify over the level being called. -/
def levelMethod : LogLevel →
    LoggingConfig → String → List LogEntry → String → Option JObj → List LogEntry
  | .debug => debugCall
  | .info => infoCall
  | .warn => warnCall
  | .error => errorCall

/-- A JavaScript `Error` value as the handler code reads it: `name`,
`message` and optional `stack`. -/
structure JsError where
  name : String
  message : String
  stack : Option String

/-- The entry `Logger.logException` constructs (src/frontend/src/logger.ts,
lines 81-94): message from `message || error.message || 'An error
occurred'`, stack from `error.stack || 'No stack trace available'`, and a
context spreading the supplied context then overriding `errorName` and
`errorMessage`. -/
def logExceptionEntry (now : String) (err : JsError) (message : Option String)
    (context : Option JObj) : LogEntry :=
  let errorMessage := jsOrOpt message (jsOr err.message "An error occurred")
  let stackTrace := jsOrOpt err.stack "No stack trace available"
  let ctx : JObj :=
    (context.getD []) ++
      [("errorName", JVal.str err.name), ("errorMessage", JVal.str err.message)]
  createLogEntry now .error errorMessage (some ctx) (some stackTrace) none

/-- Embeds `Logger.logException` (src/frontend/src/logger.ts, lines
81-97): constructs the error entry and enqueues it. Unlike the four level
methods and `logWithComponent`, the source performs no `shouldLog` check
on this path. -/
def logExceptionCall (cfg : LoggingConfig) (now : String) (q : List LogEntry)
    (err : JsError) (message : Option String) (context : Option JObj) : List LogEntry :=
  AsyncLogQueue.enqueue cfg.maxQueueSize q (logExceptionEntry now err message context)

/-- Embeds `Logger.logWithComponent` (src/frontend/src/logger.ts, lines
100-110). -/
def logWithComponentCall (cfg : LoggingConfig) (now : String) (q : List LogEntry)
    (level : LogLevel) (component : String) (message : String)
    (context : Option JObj) : List LogEntry :=
  if ConfigManager.shouldLog cfg level then
    AsyncLogQueue.enqueue cfg.maxQueueSize q
      (createLogEntry now level message context none (some component))
  else q

end Logger

namespace ExceptionHandler

/-- Embeds `SafariExceptionHandler.captureExceptionWithContext`
(src/unnamed/part_009, lines 357-371): calls `Logger.logException` with the
derived message and the context object
`\x7b component, action, ...additionalContext, capturedWithContext: true \x7d`. -/
def captureExceptionWithContext (cfg : LoggingConfig) (now : String)
    (q : List LogEntry) (err : Logger.JsError) (component action : String)
    (additionalContext : Option JObj) : List LogEntry :=
  Logger.logExceptionCall cfg now q err
    (some ("Error in " ++ component ++ " during " ++ action))
    (some ([("component", JVal.str component), ("action", JVal.str action)]
      ++ (additionalContext.getD [])
      ++ [("capturedWithContext", JVal.bool true)]))

/-- Embeds the synchronous path of `SafariExceptionHandler.wrapFunction`
(src/unnamed/part_009, lines 392-424). The wrapped callee is abstracted as
a function from the argument list to either a value or a thrown error; the
promise-rejection branch of the source runs the same capture with the same
context and re-raises the same error, so the `Except` failure case covers
both a synchronous throw and a rejected promise. Returns the call's
outcome and the logger queue after the call. -/
def wrapFunction (cfg : LoggingConfig) (now : String)
    (fn : List JVal → Except Logger.JsError JVal)
    (component functionName : String)
    (q : List LogEntry) (args : List JVal) :
    Except Logger.JsError JVal × List LogEntry :=
  match fn args with
  | .ok v => (.ok v, q)
  | .error e =>
    (.error e,
      captureExceptionWithContext cfg now q e component functionName
        (some [("arguments", JVal.arr args)]))

end ExceptionHandler

/-- The runtime-object view of the `ConfigManager` constructor's merge
`\x7b ...DEFAULT_CONFIG, ...customConfig \x7d` (src/unnamed/part_004, line
7): in JavaScript the spread copies EVERY own key of `customConfig`,
recognized or not. `DEFAULT_CONFIG` as the object literal of
src/unnamed/part_003, lines 23-39. -/
def DEFAULT_CONFIG_obj : JObj :=
  [("apiEndpoint", .str "http://localhost:8000/api/logs"),
   ("batchSize", .num 10),
   ("flushInterval", .num 5000),
   ("maxQueueSize", .num 100),
   ("logLevel", .str "info"),
   ("retryAttempts", .num 3),
   ("retryDelayMs", .num 1000),
   ("enabled", .bool true),
   ("formatOptions", .obj
     [("includeTimestamp", .bool true),
      ("timestampFormat", .str "iso"),
      ("includeSource", .bool true),
      ("includeContext", .bool true),
      ("maxMessageLength", .num 1000)])]

/-- The recognized keys of the `LoggingConfig` schema
(src/unnamed/part_003, lines 3-13). -/
def schemaKeys : List String :=
  ["apiEndpoint", "batchSize", "flushInterval", "maxQueueSize", "logLevel",
   "retryAttempts", "retryDelayMs", "enabled", "formatOptions"]

/-- The object stored by the `ConfigManager` constructor and returned (as a
shallow copy with the same keys and values) by `getConfig`
(src/unnamed/part_004, lines 6-13), at the runtime-object level: the spread
merge of the supplied object over the defaults. -/
def constructObj (custom : JObj) : JObj :=
  DEFAULT_CONFIG_obj ++ custom

/-- The aggregate state of a constructed `Logger`
(src/frontend/src/logger.ts, lines 11-15): the `ConfigManager`'s stored
configuration and the configuration value the `AsyncLogQueue` received at
construction (the copy returned by `getConfig`, stored in the queue's
`config` field, src/unnamed/part_003, lines 88-90). -/
structure LoggerState where
  managerConfig : LoggingConfig
  queueConfig : LoggingConfig

/-- Embeds the `Logger` constructor (src/frontend/src/logger.ts, lines
11-15): the queue is constructed with `configManager.getConfig()`, a copy
of the manager's configuration at that moment. -/
def Logger.construct (managerConfig : LoggingConfig) : LoggerState where
  managerConfig := managerConfig
  queueConfig := ConfigManager.getConfig managerConfig

/-- A later `ConfigManager.updateConfig` call on the manager a Logger was
built from: the manager rebinds its own `config` field
(src/unnamed/part_004, line 16) while the queue's `config` field is not
written by anything after the queue's constructor. -/
def LoggerState.updateManagerConfig (ls : LoggerState) (u : ConfigPatch) :
    LoggerState × Except String Unit :=
  let p := ConfigManager.updateConfig ls.managerConfig u
  ({ ls with managerConfig := p.1 }, p.2)

/-- The field names of the `LogEntry` wire schema (src/unnamed/part_003,
lines 46-54). -/
def entryFieldNames : List String :=
  ["timestamp", "level", "message", "source", "context", "stackTrace", "component"]

/-- A concrete entry used by the concrete scenarios of the claims. -/
def sampleEntry (l : LogLevel) (m : String) : LogEntry where
  timestamp := "2025-01-01T00:00:00.000Z"
  level := l
  message := m
  source := "frontend"
  context := none
  stackTrace := none
  component := some "safari-extension"

namespace AsyncLogQueue

lemma removeFirstAtLevel_some {l : LogLevel} :
    ∀ {q q' : List LogEntry}, removeFirstAtLevel l q = some q' →
      ∃ pre e post, q = pre ++ e :: post ∧ q' = pre ++ post ∧ e.level = l ∧
        ∀ x ∈ pre, x.level ≠ l := by
  intro q
  induction q with
  | nil => intro q' h; simp [removeFirstAtLevel] at h
  | cons a rest ih =>
    intro q' h
    by_cases ha : a.level = l
    · rw [removeFirstAtLevel, if_pos ha, Option.some_inj] at h
      exact ⟨[], a, rest, by simp, by simp [h], ha, by simp⟩
    · rw [removeFirstAtLevel, if_neg ha] at h
      rcases Option.map_eq_some'.mp h with ⟨r', hr', hq'⟩
      rcases ih hr' with ⟨pre, e, post, hq, hr, he, hpre⟩
      refine ⟨a :: pre, e, post, by simp [hq], by simp [← hq', hr], he, ?_⟩
      intro x hx
      rcases List.mem_cons.mp hx with h | h
      · exact h ▸ ha
      · exact hpre x h

lemma removeFirstAtLevel_none {l : LogLevel} :
    ∀ {q : List LogEntry}, removeFirstAtLevel l q = none ↔ ∀ x ∈ q, x.level ≠ l := by
  intro q
  induction q with
  | nil => simp [removeFirstAtLevel]
  | cons a rest ih =>
    by_cases ha : a.level = l
    · simp [removeFirstAtLevel, ha]
    · simp [removeFirstAtLevel, ha, ih]

lemma removeFirstAtLevel_length {l : LogLevel} {q q' : List LogEntry}
    (h : removeFirstAtLevel l q = some q') : q.length = q'.length + 1 := by
  rcases removeFirstAtLevel_some h with ⟨pre, e, post, hq, hr, _, _⟩
  subst hq; subst hr
  simp only [List.length_append, List.length_cons]
  omega

/-- The eviction scan always removes exactly one entry of a non-empty
queue: the level alphabet is exhaustive, so the fallback head-drop also
removes one. -/
lemma handleQueueOverflow_length {q : List LogEntry} (h : q ≠ []) :
    (handleQueueOverflow q).length + 1 = q.length := by
  unfold handleQueueOverflow
  rcases hd : removeFirstAtLevel .debug q with _ | qd
  · rcases hi : removeFirstAtLevel .info q with _ | qi
    · rcases hw : removeFirstAtLevel .warn q with _ | qw
      · rcases he : removeFirstAtLevel .error q with _ | qe
        · exfalso
          rcases List.exists_mem_of_ne_nil q h with ⟨x, hx⟩
          have h1 := removeFirstAtLevel_none.mp hd x hx
          have h2 := removeFirstAtLevel_none.mp hi x hx
          have h3 := removeFirstAtLevel_none.mp hw x hx
          have h4 := removeFirstAtLevel_none.mp he x hx
          cases hx' : x.level <;> simp_all
        · simpa using (removeFirstAtLevel_length he).symm
      · simpa using (removeFirstAtLevel_length hw).symm
    · simpa using (removeFirstAtLevel_length hi).symm
  · simpa using (removeFirstAtLevel_length hd).symm

lemma rank_ge_one {lv : LogLevel} (h : lv ≠ .debug) : 1 ≤ LOG_LEVELS lv := by
  cases lv <;> simp_all [LOG_LEVELS]

lemma rank_ge_two {lv : LogLevel} (h1 : lv ≠ .debug) (h2 : lv ≠ .info) :
    2 ≤ LOG_LEVELS lv := by
  cases lv <;> simp_all [LOG_LEVELS]

lemma rank_ge_three {lv : LogLevel} (h1 : lv ≠ .debug) (h2 : lv ≠ .info)
    (h3 : lv ≠ .warn) : 3 ≤ LOG_LEVELS lv := by
  cases lv <;> simp_all [LOG_LEVELS]

/-- The structural description of one eviction: the dropped entry is the
first entry at the lowest level present in the queue. -/
lemma handleQueueOverflow_spec {q : List LogEntry} (h : q ≠ []) :
    ∃ pre e post, q = pre ++ e :: post ∧
      handleQueueOverflow q = pre ++ post ∧
      (∀ x ∈ q, LOG_LEVELS e.level ≤ LOG_LEVELS x.level) ∧
      (∀ x ∈ pre, x.level ≠ e.level) := by
  unfold handleQueueOverflow
  rcases hd : removeFirstAtLevel .debug q with _ | qd
  · rcases hi : removeFirstAtLevel .info q with _ | qi
    · rcases hw : removeFirstAtLevel .warn q with _ | qw
      · rcases he : removeFirstAtLevel .error q with _ | qe
        · exfalso
          rcases List.exists_mem_of_ne_nil q h with ⟨x, hx⟩
          have h1 := removeFirstAtLevel_none.mp hd x hx
          have h2 := removeFirstAtLevel_none.mp hi x hx
          have h3 := removeFirstAtLevel_none.mp hw x hx
          have h4 := removeFirstAtLevel_none.mp he x hx
          cases hx' : x.level <;> simp_all
        · rcases removeFirstAtLevel_some he with ⟨pre, e, post, hq, hr, hel, hpre⟩
          refine ⟨pre, e, post, hq, by simpa using hr, ?_, by simpa [hel] using hpre⟩
          intro x hx
          have h1 := removeFirstAtLevel_none.mp hd x hx
          have h2 := removeFirstAtLevel_none.mp hi x hx
          have h3 := removeFirstAtLevel_none.mp hw x hx
          exact hel ▸ rank_ge_three h1 h2 h3
      · rcases removeFirstAtLevel_some hw with ⟨pre, e, post, hq, hr, hel, hpre⟩
        refine ⟨pre, e, post, hq, by simpa using hr, ?_, by simpa [hel] using hpre⟩
        intro x hx
        have h1 := removeFirstAtLevel_none.mp hd x hx
        have h2 := removeFirstAtLevel_none.mp hi x hx
        have hle : 2 ≤ LOG_LEVELS x.level := rank_ge_two h1 h2
        simpa [hel, LOG_LEVELS] using hle
    · rcases removeFirstAtLevel_some hi with ⟨pre, e, post, hq, hr, hel, hpre⟩
      refine ⟨pre, e, post, hq, by simpa using hr, ?_, by simpa [hel] using hpre⟩
      intro x hx
      have h1 := removeFirstAtLevel_none.mp hd x hx
      have hle : 1 ≤ LOG_LEVELS x.level := rank_ge_one h1
      simpa [hel, LOG_LEVELS] using hle
  · rcases removeFirstAtLevel_some hd with ⟨pre, e, post, hq, hr, hel, hpre⟩
    refine ⟨pre, e, post, hq, by simpa using hr, ?_, by simpa [hel] using hpre⟩
    intro x hx
    rw [hel]
    cases x.level <;> simp [LOG_LEVELS]

/-- The length bound is preserved by every queue operation. -/
lemma stepOp_length_le {cfg : LoggingConfig} (h1 : 1 ≤ cfg.maxQueueSize)
    {st : QueueState} (hst : (st.queue.length : Int) ≤ cfg.maxQueueSize)
    (op : QOp) : ((stepOp cfg st op).queue.length : Int) ≤ cfg.maxQueueSize := by
  cases op with
  | enq e =>
    have hcore : ((enqueue cfg.maxQueueSize st.queue e).length : Int) ≤ cfg.maxQueueSize := by
      unfold enqueue
      by_cases hfull : cfg.maxQueueSize ≤ (st.queue.length : Int)
      · have hne : st.queue ≠ [] := by
          intro hnil
          rw [hnil] at hfull
          simp at hfull
          omega
        have hlen := handleQueueOverflow_length hne
        rw [if_pos hfull]
        simp only [List.length_append, List.length_cons, List.length_nil]
        omega
      · rw [if_neg hfull]
        simp only [List.length_append, List.length_cons, List.length_nil]
        omega
    show ((enqueueStep cfg st e).queue.length : Int) ≤ cfg.maxQueueSize
    unfold enqueueStep flushStartStep
    dsimp only
    by_cases htrig : cfg.batchSize ≤ ((enqueue cfg.maxQueueSize st.queue e).length : Int)
    · rw [if_pos htrig]
      by_cases hguard : st.isFlushInProgress ||
          (enqueue cfg.maxQueueSize st.queue e).isEmpty
      · simpa [hguard] using hcore
      · simp only [hguard, Bool.false_eq_true, if_neg, ite_false]
        have : ((enqueue cfg.maxQueueSize st.queue e).drop cfg.batchSize.toNat).length
            = (enqueue cfg.maxQueueSize st.queue e).length - cfg.batchSize.toNat := by
          simp
        omega
    · rw [if_neg htrig]
      exact hcore
  | flushStart =>
    show ((flushStartStep cfg st).queue.length : Int) ≤ cfg.maxQueueSize
    unfold flushStartStep
    by_cases hguard : st.isFlushInProgress || st.queue.isEmpty
    · simp only [hguard, if_true]
      exact hst
    · simp only [hguard, Bool.false_eq_true, if_neg, ite_false]
      have : (st.queue.drop cfg.batchSize.toNat).length
          = st.queue.length - cfg.batchSize.toNat := by
        simp
      omega
  | flushEnd =>
    simp only [stepOp, flushEndStep]
    exact hst

/-- Extracts the attempt number of a send event. -/
def sendAttemptOf : QEvent → Option Nat
  | .send a => some a
  | _ => none

/-- Extracts the duration of a backoff sleep event. -/
def sleepOf : QEvent → Option Int
  | .sleep ms => some ms
  | _ => none

lemma filterMap_sendAttemptOf_console (batch : List LogEntry) :
    (batch.map QEvent.consoleEntry).filterMap sendAttemptOf = [] := by
  induction batch with
  | nil => simp
  | cons b rest ih => simp [sendAttemptOf, ih]

lemma filterMap_sleepOf_console (batch : List LogEntry) :
    (batch.map QEvent.consoleEntry).filterMap sleepOf = [] := by
  induction batch with
  | nil => simp
  | cons b rest ih => simp [sleepOf, ih]

/-- The complete behavior of the retry loop against a transport that fails
on every attempt: starting at attempt `a` with `k` retries left, it sends
at attempts `a, a+1, ..., a+k`, sleeps `retryDelayMs * 2^j` after failed
attempt `j` for each `j < a+k`, ends with the console fallback of the whole
batch, and surfaces the final error. -/
lemma sendBatchWithRetry_alwaysFail {R d : Int} {res : Nat → Option String}
    {e : String} (hfail : ∀ n, res n = some e) (batch : List LogEntry) :
    ∀ (k a : Nat), (a : Int) + k = R →
      ((sendBatchWithRetry R d res batch a).1.filterMap sendAttemptOf
          = List.range' a (k + 1)) ∧
      ((sendBatchWithRetry R d res batch a).1.filterMap sleepOf
          = (List.range' a k).map fun j => d * 2 ^ j) ∧
      (∃ pre, (sendBatchWithRetry R d res batch a).1 = pre ++ fallbackToConsole batch) ∧
      ((sendBatchWithRetry R d res batch a).2 = .error e) := by
  intro k
  induction k with
  | zero =>
    intro a ha
    have hnot : ¬ ((a : Int) < R) := by omega
    rw [sendBatchWithRetry, hfail a]
    simp only [hnot, dite_false]
    refine ⟨?_, ?_, ⟨[QEvent.send a], rfl⟩, by trivial⟩
    · simp [fallbackToConsole, sendAttemptOf, filterMap_sendAttemptOf_console]
    · simp [fallbackToConsole, sendAttemptOf, sleepOf, filterMap_sleepOf_console]
  | succ k ih =>
    intro a ha
    have hlt : (a : Int) < R := by omega
    have hrec := ih (a + 1) (by push_cast; omega)
    rw [sendBatchWithRetry, hfail a]
    simp only [hlt, dite_true]
    refine ⟨?_, ?_, ?_, hrec.2.2.2⟩
    · rw [List.range'_succ]
      simp [sendAttemptOf, sleepOf, hrec.1]
    · rw [List.range'_succ]
      simp [sendAttemptOf, sleepOf, hrec.2.1]
    · rcases hrec.2.2.1 with ⟨pre, hpre⟩
      exact ⟨QEvent.send a :: QEvent.sleep (d * 2 ^ a) :: pre, by simp [hpre]⟩

lemma runOps_length_le {cfg : LoggingConfig} (h1 : 1 ≤ cfg.maxQueueSize)
    (ops : List QOp) :
    ∀ {st : QueueState}, (st.queue.length : Int) ≤ cfg.maxQueueSize →
      ((runOps cfg st ops).queue.length : Int) ≤ cfg.maxQueueSize := by
  induction ops with
  | nil => intro st hst; simpa [runOps] using hst
  | cons op rest ih =>
    intro st hst
    have h2 := stepOp_length_le h1 hst op
    simpa [runOps, List.foldl_cons] using ih h2

end AsyncLogQueue

lemma oget_append (a b : JObj) (k : String) :
    oget (a ++ b) k = match oget b k with
      | some v => some v
      | none => oget a k := by
  induction a with
  | nil =>
    simp only [List.nil_append]
    cases oget b k <;> simp [oget]
  | cons p rest ih =>
    obtain ⟨k', v⟩ := p
    rcases hb : oget b k with _ | vb <;> rcases hr : oget rest k with _ | vr <;>
      simp_all [oget]

lemma hasKey_append (a b : JObj) (k : String) :
    hasKey (a ++ b) k = (hasKey a k || hasKey b k) := by
  simp [hasKey, List.any_append]

lemma updateManagerConfig_queueConfig (ls : LoggerState) (u : ConfigPatch) :
    ((ls.updateManagerConfig u).1).queueConfig = ls.queueConfig := rfl

lemma foldl_updates_queueConfig (us : List ConfigPatch) :
    ∀ ls : LoggerState,
      (us.foldl (fun s u => (s.updateManagerConfig u).1) ls).queueConfig
        = ls.queueConfig := by
  induction us with
  | nil => intro ls; rfl
  | cons u rest ih =>
    intro ls
    simpa [List.foldl_cons, updateManagerConfig_queueConfig] using
      ih ((ls.updateManagerConfig u).1)

/-- C1 (counterexample): the claim says that with `enabled = false` every
logging call, `logException` included, leaves the queue unchanged; but
`Logger.logException` never consults `shouldLog`, so on a disabled
configuration it still enqueues its entry: starting from the empty queue,
one call yields a queue of size 1. -/
theorem claim_C1_counterexample :
    ({ DEFAULT_CONFIG with enabled := false } : LoggingConfig).enabled = false ∧
    (Logger.logExceptionCall { DEFAULT_CONFIG with enabled := false } "t" []
      ⟨"Error", "boom", none⟩ none none).length = 1 :=
  ⟨rfl, rfl⟩

/-- C1 (amended): when the configuration field `enabled` is false, the
calls `debug`, `info`, `warn`, `error` and `logWithComponent` are no-ops
(no entry is constructed, the queue is unchanged); `logException`, however,
performs no filtering at all and enqueues its error entry regardless of
`enabled`. -/
theorem claim_C1 (cfg : LoggingConfig) (now : String) (q : List LogEntry)
    (msg : String) (ctx : Option JObj) (lvl : LogLevel) (comp : String)
    (err : Logger.JsError) (em : Option String)
    (h : cfg.enabled = false) :
    Logger.debugCall cfg now q msg ctx = q ∧
    Logger.infoCall cfg now q msg ctx = q ∧
    Logger.warnCall cfg now q msg ctx = q ∧
    Logger.errorCall cfg now q msg ctx = q ∧
    Logger.logWithComponentCall cfg now q lvl comp msg ctx = q ∧
    Logger.logExceptionCall cfg now q err em ctx
      = AsyncLogQueue.enqueue cfg.maxQueueSize q
          (Logger.logExceptionEntry now err em ctx) := by
  have hs : ∀ l, ConfigManager.shouldLog cfg l = false := by
    intro l; simp [ConfigManager.shouldLog, h]
  simp [Logger.debugCall, Logger.infoCall, Logger.warnCall, Logger.errorCall,
    Logger.logWithComponentCall, Logger.logExceptionCall, hs]

/-- C1 (witness): the amended theorem applied to a concrete disabled
configuration: a `debug` call on the empty queue leaves it empty. -/
theorem claim_C1_witness :
    Logger.debugCall { DEFAULT_CONFIG with enabled := false } "t" [] "m" none = [] :=
  (claim_C1 { DEFAULT_CONFIG with enabled := false } "t" [] "m" none .debug "c"
    ⟨"Error", "boom", none⟩ none rfl).1

/-- C2 (counterexample): the claim says a failed `updateConfig` leaves the
stored configuration as it was; but the source mutates first and validates
second, so after `updateConfig(\x7b batchSize: -1 \x7d)` throws, the stored
configuration already holds `batchSize = -1` while it held `10` before. -/
theorem claim_C2_counterexample :
    (ConfigManager.updateConfig DEFAULT_CONFIG { batchSize := some (-1) }).2
        = .error "Batch size must be greater than 0" ∧
    (ConfigManager.updateConfig DEFAULT_CONFIG { batchSize := some (-1) }).1.batchSize = -1 ∧
    DEFAULT_CONFIG.batchSize = 10 ∧
    (ConfigManager.updateConfig DEFAULT_CONFIG { batchSize := some (-1) }).1
        ≠ DEFAULT_CONFIG := by
  refine ⟨rfl, rfl, rfl, ?_⟩
  intro hcontra
  have h1 : (ConfigManager.updateConfig DEFAULT_CONFIG
      { batchSize := some (-1) }).1.batchSize = -1 := rfl
  rw [hcontra] at h1
  have h2 : DEFAULT_CONFIG.batchSize = 10 := rfl
  omega

/-- C2 (amended): when a partial update makes the merged configuration
invalid, `updateConfig` throws the validation message, but the stored
configuration after the call is the merged (invalid) configuration, not
the previous one: whenever the failed update changed anything,
`getConfig()` after the call differs from `getConfig()` before it. -/
theorem claim_C2 (cfg : LoggingConfig) (u : ConfigPatch) (msg : String)
    (h : ConfigManager.validateConfig (mergeConfig cfg u) = .error msg) :
    (ConfigManager.updateConfig cfg u).2 = .error msg ∧
    (ConfigManager.updateConfig cfg u).1 = mergeConfig cfg u ∧
    (mergeConfig cfg u ≠ cfg → (ConfigManager.updateConfig cfg u).1 ≠ cfg) :=
  ⟨h, rfl, fun hne => hne⟩

/-- C2 (witness): the amended theorem applied to the default configuration
and the invalid update `batchSize := -1`. -/
theorem claim_C2_witness :
    (ConfigManager.updateConfig DEFAULT_CONFIG { batchSize := some (-1) }).1
      = mergeConfig DEFAULT_CONFIG { batchSize := some (-1) } :=
  (claim_C2 DEFAULT_CONFIG { batchSize := some (-1) }
    "Batch size must be greater than 0" rfl).2.1

/-- C3 (counterexample): the claim says the request URL is exactly the
configured `apiEndpoint` with no path appended; but `sendBatch` fetches
`the endpoint string with "/api/logs" appended`, as the repository's own
tests expect: with `apiEndpoint = "http://localhost:8000"` the request URL
is `"http://localhost:8000/api/logs"`, not the endpoint string itself. -/
theorem claim_C3_counterexample :
    (AsyncLogQueue.sendBatchRequest
        { DEFAULT_CONFIG with apiEndpoint := "http://localhost:8000" } []).url
      = "http://localhost:8000/api/logs" ∧
    (AsyncLogQueue.sendBatchRequest
        { DEFAULT_CONFIG with apiEndpoint := "http://localhost:8000" } []).url
      ≠ ({ DEFAULT_CONFIG with apiEndpoint := "http://localhost:8000" }
          : LoggingConfig).apiEndpoint :=
  ⟨rfl, by decide⟩

/-- C3 (amended): every delivery attempt issues an HTTP POST whose URL is
the configured `apiEndpoint` with the fixed path `"/api/logs"` appended,
with header `Content-Type: application/json` and body
`\x7b "entries": [...] \x7d` whose entries are serialized with the LogEntry
field names (`undefined` optional fields omitted, the four required fields
always present with their values). -/
theorem claim_C3 (cfg : LoggingConfig) (batch : List LogEntry) :
    (AsyncLogQueue.sendBatchRequest cfg batch).url = cfg.apiEndpoint ++ "/api/logs" ∧
    (AsyncLogQueue.sendBatchRequest cfg batch).httpMethod = "POST" ∧
    (AsyncLogQueue.sendBatchRequest cfg batch).contentType = "application/json" ∧
    (AsyncLogQueue.sendBatchRequest cfg batch).body
      = .obj [("entries", .arr (batch.map AsyncLogQueue.entryToJson))] ∧
    ∀ e : LogEntry, ∃ fields,
      AsyncLogQueue.entryToJson e = .obj fields ∧
      (∀ p ∈ fields, p.1 ∈ entryFieldNames) ∧
      oget fields "timestamp" = some (.str e.timestamp) ∧
      oget fields "level" = some (.str (levelName e.level)) ∧
      oget fields "message" = some (.str e.message) ∧
      oget fields "source" = some (.str e.source) := by
  refine ⟨rfl, rfl, rfl, rfl, ?_⟩
  intro e
  obtain ⟨ts, lv, m, s, ctxo, sto, co⟩ := e
  cases ctxo <;> cases sto <;> cases co <;>
    exact ⟨_, rfl, by simp [AsyncLogQueue.entryToJson, entryFieldNames], rfl, rfl, rfl, rfl⟩

/-- C4: overflow eviction removes the first (oldest) entry whose level is
the lowest level present, scanning debug, info, warn, error in order; and
the concrete scenario: with `maxQueueSize = 3` and queue [debug, info,
warn], enqueuing an error entry yields [info, warn, error]. -/
theorem claim_C4 (q : List LogEntry) (h : q ≠ []) :
    (∃ pre e post, q = pre ++ e :: post ∧
      AsyncLogQueue.handleQueueOverflow q = pre ++ post ∧
      (∀ x ∈ q, LOG_LEVELS e.level ≤ LOG_LEVELS x.level) ∧
      (∀ x ∈ pre, x.level ≠ e.level)) ∧
    AsyncLogQueue.enqueue 3
      [sampleEntry .debug "d", sampleEntry .info "i", sampleEntry .warn "w"]
      (sampleEntry .error "e")
      = [sampleEntry .info "i", sampleEntry .warn "w", sampleEntry .error "e"] :=
  ⟨AsyncLogQueue.handleQueueOverflow_spec h, rfl⟩

/-- C4 (witness): the theorem applied to a concrete one-entry queue; its
second conjunct is the concrete eviction scenario of the claim. -/
theorem claim_C4_witness :
    AsyncLogQueue.enqueue 3
      [sampleEntry .debug "d", sampleEntry .info "i", sampleEntry .warn "w"]
      (sampleEntry .error "e")
      = [sampleEntry .info "i", sampleEntry .warn "w", sampleEntry .error "e"] :=
  (claim_C4 [sampleEntry .debug "d"] (by simp)).2

/-- C5: against a transport that fails on every attempt,
`sendBatchWithRetry` starting at attempt 0 performs exactly
`retryAttempts + 1` send attempts (attempts 0 through `retryAttempts`),
sleeps `retryDelayMs * 2^attempt` before each retry (0-indexed), ends with
the console fallback writing every entry of the batch, and the final error
is the outcome `flush` surfaces to its caller. -/
theorem claim_C5 (cfg : LoggingConfig) (res : Nat → Option String) (e : String)
    (batch : List LogEntry) (st : AsyncLogQueue.QueueState)
    (hR : 0 ≤ cfg.retryAttempts) (hfail : ∀ n, res n = some e)
    (hB : 1 ≤ cfg.batchSize) (hq : st.queue ≠ [])
    (hfl : st.isFlushInProgress = false) :
    ((AsyncLogQueue.sendBatchWithRetry cfg.retryAttempts cfg.retryDelayMs res
        batch 0).1.filterMap AsyncLogQueue.sendAttemptOf
      = List.range (cfg.retryAttempts.toNat + 1)) ∧
    ((AsyncLogQueue.sendBatchWithRetry cfg.retryAttempts cfg.retryDelayMs res
        batch 0).1.filterMap AsyncLogQueue.sleepOf
      = (List.range cfg.retryAttempts.toNat).map fun j => cfg.retryDelayMs * 2 ^ j) ∧
    (∃ pre, (AsyncLogQueue.sendBatchWithRetry cfg.retryAttempts cfg.retryDelayMs res
        batch 0).1 = pre ++ AsyncLogQueue.fallbackToConsole batch) ∧
    ((AsyncLogQueue.sendBatchWithRetry cfg.retryAttempts cfg.retryDelayMs res
        batch 0).2 = .error e) ∧
    (AsyncLogQueue.flush cfg res st).2.2 = .error e := by
  have h0 : ((0 : Nat) : Int) + cfg.retryAttempts.toNat = cfg.retryAttempts := by
    omega
  have main := @AsyncLogQueue.sendBatchWithRetry_alwaysFail cfg.retryAttempts
    cfg.retryDelayMs res e hfail batch cfg.retryAttempts.toNat 0 h0
  refine ⟨?_, ?_, main.2.2.1, main.2.2.2, ?_⟩
  · rw [List.range_eq_range']
    exact main.1
  · rw [List.range_eq_range']
    exact main.2.1
  · have hguard : (st.isFlushInProgress || st.queue.isEmpty) = false := by
      simp [hfl, hq]
    have hbatch : (st.queue.take cfg.batchSize.toNat).isEmpty = false := by
      rcases hs : st.queue with _ | ⟨x, rest⟩
      · exact absurd hs hq
      · have : 1 ≤ cfg.batchSize.toNat := by omega
        rcases hn : cfg.batchSize.toNat with _ | n
        · omega
        · simp [List.take]
    have mainT := @AsyncLogQueue.sendBatchWithRetry_alwaysFail cfg.retryAttempts
      cfg.retryDelayMs res e hfail (st.queue.take cfg.batchSize.toNat)
      cfg.retryAttempts.toNat 0 h0
    rw [AsyncLogQueue.flush, if_neg (by simp [hguard]), if_neg (by simp [hbatch])]
    exact mainT.2.2.2

/-- C5 (witness): the theorem applied to a concrete configuration with 2
retry attempts, an always-failing transport, and a one-entry queue: the
final error propagates out of `flush`. -/
theorem claim_C5_witness :
    (AsyncLogQueue.flush { DEFAULT_CONFIG with retryAttempts := 2 }
      (fun _ => some "network error")
      ⟨[sampleEntry .info "m"], false⟩).2.2 = .error "network error" :=
  (claim_C5 { DEFAULT_CONFIG with retryAttempts := 2 }
    (fun _ => some "network error") "network error" [sampleEntry .info "m"]
    ⟨[sampleEntry .info "m"], false⟩
    (by decide) (fun _ => rfl) (by decide) (by simp) rfl).2.2.2.2

/-- C6: with `enabled = true`, calling the level method at level `l`
enqueues exactly one entry (the one `createLogEntry` builds for that call)
when `rank(l) >= rank(configuredLevel)` and leaves the queue unchanged when
`rank(l) < rank(configuredLevel)`; and `shouldLog(level)` is exactly
`enabled && levelRank(level) >= levelRank(configuredLevel)`. -/
theorem claim_C6 (cfg : LoggingConfig) (now : String) (q : List LogEntry)
    (msg : String) (ctx : Option JObj) (l : LogLevel)
    (hEn : cfg.enabled = true) :
    (LOG_LEVELS cfg.logLevel ≤ LOG_LEVELS l →
      Logger.levelMethod l cfg now q msg ctx
        = AsyncLogQueue.enqueue cfg.maxQueueSize q
            (Logger.createLogEntry now l msg ctx none none)) ∧
    (LOG_LEVELS l < LOG_LEVELS cfg.logLevel →
      Logger.levelMethod l cfg now q msg ctx = q) ∧
    ConfigManager.shouldLog cfg l
      = (cfg.enabled && decide (LOG_LEVELS cfg.logLevel ≤ LOG_LEVELS l)) := by
  refine ⟨?_, ?_, ?_⟩
  · intro hrank
    have hsl : ConfigManager.shouldLog cfg l = true := by
      simp [ConfigManager.shouldLog, ConfigManager.isLogLevelEnabled, hEn, hrank]
    cases l <;>
      simp [Logger.levelMethod, Logger.debugCall, Logger.infoCall,
        Logger.warnCall, Logger.errorCall, hsl]
  · intro hrank
    have hsl : ConfigManager.shouldLog cfg l = false := by
      simp only [ConfigManager.shouldLog, ConfigManager.isLogLevelEnabled,
        Bool.and_eq_false_imp, decide_eq_false_iff_not]
      intro _
      omega
    cases l <;>
      simp [Logger.levelMethod, Logger.debugCall, Logger.infoCall,
        Logger.warnCall, Logger.errorCall, hsl]
  · simp [ConfigManager.shouldLog, ConfigManager.isLogLevelEnabled]

/-- C6 (witness): the theorem applied to a configuration at level `warn`:
a `debug` call on the empty queue leaves it empty. -/
theorem claim_C6_witness :
    Logger.levelMethod .debug { DEFAULT_CONFIG with logLevel := .warn }
      "t" [] "m" none = [] :=
  (claim_C6 { DEFAULT_CONFIG with logLevel := .warn } "t" [] "m" none .debug
    rfl).2.1 (by decide)

/-- C7 (counterexample): the claim says unknown keys are ignored and
`getConfig()` holds exactly the schema's keys; but the constructor's
object spread copies every own key of the supplied object, so an unknown
key `"extra"` survives into the stored (and returned) configuration
object. -/
theorem claim_C7_counterexample :
    hasKey (constructObj [("extra", JVal.num 42)]) "extra" = true ∧
    oget (constructObj [("extra", JVal.num 42)]) "extra" = some (JVal.num 42) ∧
    "extra" ∉ schemaKeys :=
  ⟨rfl, rfl, by decide⟩

/-- C7 (amended): construction merges the supplied object over the
defaults by object spread: every recognized key maps to the supplied value
when supplied and to its default otherwise, and the keys of the resulting
configuration object are the defaults' (schema) keys together with ALL
keys of the supplied object — unknown keys are retained, not ignored. -/
theorem claim_C7 (custom : JObj) :
    (∀ k : String,
      oget (constructObj custom) k
        = match oget custom k with
          | some v => some v
          | none => oget DEFAULT_CONFIG_obj k) ∧
    (∀ k : String,
      hasKey (constructObj custom) k
        = (hasKey DEFAULT_CONFIG_obj k || hasKey custom k)) :=
  ⟨fun k => oget_append DEFAULT_CONFIG_obj custom k,
   fun k => hasKey_append DEFAULT_CONFIG_obj custom k⟩

/-- C8: starting from the empty queue, after any interleaving of enqueue
calls (auto-flush trigger included), flush starts and flush completions,
the queue holds at most `maxQueueSize` entries; and every enqueue appends
its new entry after an eviction that removes exactly one entry when the
queue is at (or above) capacity and removes nothing below capacity. -/
theorem claim_C8 (cfg : LoggingConfig) (h1 : 1 ≤ cfg.maxQueueSize)
    (ops : List AsyncLogQueue.QOp) :
    (((AsyncLogQueue.runOps cfg ⟨[], false⟩ ops).queue.length : Int)
        ≤ cfg.maxQueueSize) ∧
    (∀ (q : List LogEntry) (e : LogEntry),
      ∃ q', AsyncLogQueue.enqueue cfg.maxQueueSize q e = q' ++ [e] ∧
        (q ≠ [] → cfg.maxQueueSize ≤ (q.length : Int) → q'.length + 1 = q.length) ∧
        ((q.length : Int) < cfg.maxQueueSize → q' = q)) := by
  constructor
  · refine AsyncLogQueue.runOps_length_le h1 ops ?_
    simp only [List.length_nil, Nat.cast_zero]
    omega
  · intro q e
    by_cases hfull : cfg.maxQueueSize ≤ (q.length : Int)
    · refine ⟨AsyncLogQueue.handleQueueOverflow q, ?_, ?_, ?_⟩
      · rw [AsyncLogQueue.enqueue, if_pos hfull]
      · intro hne _
        exact AsyncLogQueue.handleQueueOverflow_length hne
      · intro hlt
        omega
    · refine ⟨q, ?_, ?_, fun _ => rfl⟩
      · rw [AsyncLogQueue.enqueue, if_neg hfull]
      · intro _ hge
        exact absurd hge hfull

/-- C8 (witness): the theorem applied to the default configuration and a
single enqueue: the queue stays within its bound. -/
theorem claim_C8_witness :
    ((AsyncLogQueue.runOps DEFAULT_CONFIG ⟨[], false⟩
        [AsyncLogQueue.QOp.enq (sampleEntry .info "m")]).queue.length : Int)
      ≤ DEFAULT_CONFIG.maxQueueSize :=
  (claim_C8 DEFAULT_CONFIG (by decide)
    [AsyncLogQueue.QOp.enq (sampleEntry .info "m")]).1

/-- C9: a function wrapped by `wrapFunction` returns the callee's result
unchanged on success with no logging; on failure the wrapped call re-raises
the identical original error and enqueues exactly one error-level entry
whose context holds the call arguments under the key `"arguments"`. -/
theorem claim_C9 (cfg : LoggingConfig) (now : String)
    (fn : List JVal → Except Logger.JsError JVal) (comp fname : String)
    (q : List LogEntry) (args : List JVal) :
    (∀ v, fn args = .ok v →
      ExceptionHandler.wrapFunction cfg now fn comp fname q args = (.ok v, q)) ∧
    (∀ err, fn args = .error err →
      (ExceptionHandler.wrapFunction cfg now fn comp fname q args).1 = .error err ∧
      ∃ entry,
        (ExceptionHandler.wrapFunction cfg now fn comp fname q args).2
          = AsyncLogQueue.enqueue cfg.maxQueueSize q entry ∧
        entry.level = .error ∧
        ((q.length : Int) < cfg.maxQueueSize →
          (ExceptionHandler.wrapFunction cfg now fn comp fname q args).2
            = q ++ [entry]) ∧
        ∃ c, entry.context = some c ∧ oget c "arguments" = some (.arr args)) := by
  constructor
  · intro v hv
    simp [ExceptionHandler.wrapFunction, hv]
  · intro err herr
    refine ⟨by simp [ExceptionHandler.wrapFunction, herr], ?_⟩
    refine ⟨Logger.logExceptionEntry now err
      (some ("Error in " ++ comp ++ " during " ++ fname))
      (some ([("component", JVal.str comp), ("action", JVal.str fname)]
        ++ [("arguments", JVal.arr args)]
        ++ [("capturedWithContext", JVal.bool true)])), ?_, rfl, ?_, ?_⟩
    · simp [ExceptionHandler.wrapFunction, herr,
        ExceptionHandler.captureExceptionWithContext, Logger.logExceptionCall]
    · intro hlt
      simp [ExceptionHandler.wrapFunction, herr,
        ExceptionHandler.captureExceptionWithContext, Logger.logExceptionCall,
        AsyncLogQueue.enqueue, not_le.mpr hlt]
    · exact ⟨_, rfl, rfl⟩

/-- C9 (witness): the theorem applied to a concrete always-throwing callee:
the wrapped call re-raises the same error value. -/
theorem claim_C9_witness :
    (ExceptionHandler.wrapFunction DEFAULT_CONFIG "t"
      (fun _ => .error ⟨"Error", "boom", none⟩) "comp" "fn" [] []).1
      = .error ⟨"Error", "boom", none⟩ :=
  ((claim_C9 DEFAULT_CONFIG "t" (fun _ => .error ⟨"Error", "boom", none⟩)
    "comp" "fn" [] []).2 ⟨"Error", "boom", none⟩ rfl).1

/-- C10: the queue's configuration is the snapshot `getConfig()` returned
at Logger construction; any later sequence of `updateConfig` calls on the
ConfigManager leaves every parameter of the already-constructed queue —
batchSize, maxQueueSize, retryAttempts, retryDelayMs, apiEndpoint — at its
construction-time value. -/
theorem claim_C10 (mc : LoggingConfig) (us : List ConfigPatch) :
    (Logger.construct mc).queueConfig = ConfigManager.getConfig mc ∧
    (us.foldl (fun s u => (s.updateManagerConfig u).1)
        (Logger.construct mc)).queueConfig = ConfigManager.getConfig mc ∧
    (us.foldl (fun s u => (s.updateManagerConfig u).1)
        (Logger.construct mc)).queueConfig.batchSize = mc.batchSize ∧
    (us.foldl (fun s u => (s.updateManagerConfig u).1)
        (Logger.construct mc)).queueConfig.maxQueueSize = mc.maxQueueSize ∧
    (us.foldl (fun s u => (s.updateManagerConfig u).1)
        (Logger.construct mc)).queueConfig.retryAttempts = mc.retryAttempts ∧
    (us.foldl (fun s u => (s.updateManagerConfig u).1)
        (Logger.construct mc)).queueConfig.retryDelayMs = mc.retryDelayMs ∧
    (us.foldl (fun s u => (s.updateManagerConfig u).1)
        (Logger.construct mc)).queueConfig.apiEndpoint = mc.apiEndpoint := by
  have hfold := foldl_updates_queueConfig us (Logger.construct mc)
  have hq : (Logger.construct mc).queueConfig = mc := rfl
  rw [hfold, hq]
  exact ⟨rfl, rfl, rfl, rfl, rfl, rfl, rfl⟩

end SDD2
